import Mathlib

/-!
Shallow embedding of the WebCodecs-based media converter
(`src/next.config.js`, second document: the `convertFileWithWebCodecs`
module) of the `web-video-editor` repository, together with theorems
settling the frozen claims C1 - C10 about it.

JavaScript numbers are modelled as exact rationals (`ℚ`), strings as
Lean `String` / `List Char`, typed arrays and blobs as `List` values,
and the fallible orchestrator as a function into `Except`.
-/

namespace WebVideoEditor

/-- Model of JavaScript `Math.round`: rounds to the nearest integer,
halves towards positive infinity, i.e. `⌊x + 1/2⌋`. -/
def jsRound (q : ℚ) : ℤ := ⌊q + 1/2⌋

/-! ## Codec Parameter Resolver (`src/next.config.js` lines 658-696) -/

/-- The `qualityMap` object literal inside `getBitrate`
(lines 660-664): quality tier name to bitrate factor. A missing key is
`none` (JavaScript `undefined`). -/
def qualityMap (quality : String) : Option ℚ :=
  if quality = "low" then some (1/10)
  else if quality = "medium" then some (2/10)
  else if quality = "high" then some (4/10)
  else none

/-- Model of `getBitrate` (lines 658-668):
`Math.round(pixels * factor * 30 / 1000) * 1000` where
`factor = qualityMap[quality] || qualityMap[medium]` (the fallback
factor for the key medium is `0.2`; every present factor is truthy). -/
def getBitrate (quality : String) (width height : ℕ) : ℤ :=
  let pixels : ℚ := (width : ℚ) * (height : ℚ)
  let factor : ℚ :=
    match qualityMap quality with
    | some f => f
    | none => 2/10
  jsRound (pixels * factor * 30 / 1000) * 1000

/-- First maximal run of decimal digits in a character list; `none` when
the list has no digit. This is what the unanchored JavaScript regex
`/(\d+)k?/` captures in group 1 of `parseBitrate` (line 671). -/
def firstDigitRun : List Char → Option (List Char)
  | [] => none
  | c :: cs =>
    if c.isDigit then some (c :: cs.takeWhile Char.isDigit)
    else firstDigitRun cs

/-- Decimal value of a digit run, modelling `parseInt` on the captured
group (line 673). -/
def digitRunVal (ds : List Char) : ℕ :=
  ds.foldl (fun n c => n * 10 + (c.toNat - 48)) 0

/-- Model of `parseBitrate` (lines 670-677): the regex `/(\d+)k?/`
matches exactly when the string contains a digit; on a match the result
is `parseInt(match[1])`, multiplied by 1000 when the whole string
contains the letter k anywhere (`bitrate.includes(k)`); otherwise the
default 256000. -/
def parseBitrate (bitrate : String) : ℕ :=
  match firstDigitRun bitrate.data with
  | some ds =>
    let value := digitRunVal ds
    if bitrate.data.contains 'k' then value * 1000 else value
  | none => 256000

/-! ## Resolution scaling inside `convertVideo` (lines 248-276) -/

/-- The values of the `resolution` field of the video configuration
(type resolution of the video part of `ConversionConfig`). -/
inductive Resolution where
  | original
  | p720
  | p1080
  | uhd4k
deriving DecidableEq, Repr

/-- The `resolutionMap` object literal (lines 254-258); `none` for the
`original` setting, which never reaches the lookup (guard on line 253). -/
def resolutionMap (res : Resolution) : Option (ℕ × ℕ) :=
  match res with
  | .p720 => some (1280, 720)
  | .p1080 => some (1920, 1080)
  | .uhd4k => some (3840, 2160)
  | .original => none

/-- Model of the canvas-dimension computation of `convertVideo`
(lines 248-276): starting from the source natural dimensions
`videoWidth × videoHeight`, when a non-original bucket is configured the
dimension pair is recomputed preserving `aspectRatio = width / height`;
otherwise it is left unchanged.  Returns `(width, height)`. -/
def resolveDimensions (videoWidth videoHeight : ℕ) (res : Resolution) : ℤ × ℤ :=
  match resolutionMap res with
  | none => ((videoWidth : ℤ), (videoHeight : ℤ))
  | some (tw, th) =>
    let aspectRatio : ℚ := (videoWidth : ℚ) / (videoHeight : ℚ)
    if aspectRatio > (tw : ℚ) / (th : ℚ) then
      ((tw : ℤ), jsRound ((tw : ℚ) / aspectRatio))
    else
      (jsRound ((th : ℚ) * aspectRatio), (th : ℤ))

/-! ## Chunk accumulation and assembly
(`convertVideo` lines 307-348, `convertAudio` lines 458-534) -/

/-- One encoder-emitted binary fragment: its copied-out byte contents
(the `ArrayBuffer` pushed by the output callback). -/
abbrev Chunk := List ℕ

/-- Model of `chunks.push(buffer)` in the encoder output callback
(lines 308-311 / 459-462): append at the end of the session list. -/
def pushChunk (chunks : List Chunk) (c : Chunk) : List Chunk :=
  chunks ++ [c]

/-- Contents of the session `chunks` array after the output callback has
run once per emitted chunk, in emission order, starting from the empty
array of line 279 / 432. -/
def collectChunks (emitted : List Chunk) : List Chunk :=
  emitted.foldl pushChunk []

/-- Model of `new Blob(chunks.map(chunk => new Uint8Array(chunk)), ...)`
(line 348 / 534): a blob concatenates its parts in order. -/
def assembleChunks (chunks : List Chunk) : List ℕ :=
  chunks.flatten

/-- The recorded chunk boundaries: the byte length of each accumulated
chunk, in order. -/
def chunkBoundaries (chunks : List Chunk) : List ℕ :=
  chunks.map List.length

/-- Split a byte list back into pieces of the given sizes. -/
def splitAtSizes : List ℕ → List ℕ → List Chunk
  | [], _ => []
  | n :: ns, bytes => bytes.take n :: splitAtSizes ns (bytes.drop n)

/-! ## Audio frame interleaving (`convertAudio` lines 478-526) -/

/-- Decoded audio: channel count, total samples per channel, and the
per-channel sample data (`getChannelData`), modelling `AudioBuffer`. -/
structure AudioBufferModel where
  numberOfChannels : ℕ
  length : ℕ
  channelData : List (List ℚ)

/-- The constant `frameSize = 1024` of line 479. -/
def frameSize : ℕ := 1024

/-- Model of `Math.min(frameSize, totalSamples - offset)` (line 491). -/
def currentFrameSize (totalSamples offset : ℕ) : ℕ :=
  min frameSize (totalSamples - offset)

/-- Model of `channelData.slice(offset, offset + len)` (line 504). -/
def sliceChannel (data : List ℚ) (offset len : ℕ) : List ℚ :=
  (data.drop offset).take len

/-- The `channels` array built by the loop of lines 501-505: one slice
per channel, pushed for `channel = 0 .. numberOfChannels - 1`. -/
def frameChannels (ab : AudioBufferModel) (offset len : ℕ) : List (List ℚ) :=
  (List.range ab.numberOfChannels).map
    (fun c => sliceChannel (ab.channelData.getD c []) offset len)

/-- The interleaving loop of lines 508-513: allocate a zero-filled
buffer of length `frameLen * n`, then assign
`buf[frame * n + channel] := channels[channel][frame]` for
`frame = 0 .. frameLen - 1` (outer) and `channel = 0 .. n - 1` (inner). -/
def interleaveFrame (frameLen n : ℕ) (channels : List (List ℚ)) : List ℚ :=
  (List.range frameLen).foldl
    (fun buf frame =>
      (List.range n).foldl
        (fun buf channel =>
          buf.set (frame * n + channel) ((channels.getD channel []).getD frame 0))
        buf)
    (List.replicate (frameLen * n) 0)

/-! ## Capability probe (`isWebCodecsSupported`, lines 97-116) -/

/-- The host environment: whether the global `window` object exists and
which of the four WebCodecs constructors it carries. -/
structure Host where
  hasWindow : Bool
  videoDecoder : Bool
  videoEncoder : Bool
  audioDecoder : Bool
  audioEncoder : Bool
deriving DecidableEq

/-- Model of `isWebCodecsSupported` (lines 97-116):
window exists and has the members VideoDecoder, VideoEncoder,
AudioDecoder and AudioEncoder. -/
def isWebCodecsSupported (host : Host) : Bool :=
  host.hasWindow && host.videoDecoder && host.videoEncoder &&
    host.audioDecoder && host.audioEncoder

/-- A video-decode primitive is present in the host environment: the
global `window` exists and carries `VideoDecoder`. -/
def presentVideoDecoder (host : Host) : Bool := host.hasWindow && host.videoDecoder

/-- A video-encode primitive is present in the host environment. -/
def presentVideoEncoder (host : Host) : Bool := host.hasWindow && host.videoEncoder

/-- An audio-decode primitive is present in the host environment. -/
def presentAudioDecoder (host : Host) : Bool := host.hasWindow && host.audioDecoder

/-- An audio-encode primitive is present in the host environment. -/
def presentAudioEncoder (host : Host) : Bool := host.hasWindow && host.audioEncoder

/-! ## Configuration model (`DEFAULT_CONFIG`, lines 77-94, and the merge
on lines 727-731) -/

/-- The video part of `ConversionConfig`. -/
structure VideoConfig where
  format : String
  resolution : Resolution
  quality : String
  codec : String
deriving DecidableEq

/-- The audio part of `ConversionConfig`. -/
structure AudioConfig where
  format : String
  bitrate : String
  sampleRate : ℕ
deriving DecidableEq

/-- The image part of `ConversionConfig`. -/
structure ImageConfig where
  format : String
  quality : ℕ
  width : Option ℕ
  height : Option ℕ
deriving DecidableEq

/-- The full per-kind configuration record. -/
structure ConversionConfig where
  video : VideoConfig
  audio : AudioConfig
  image : ImageConfig
deriving DecidableEq

/-- `DEFAULT_CONFIG` (lines 78-94). -/
def DEFAULT_CONFIG : ConversionConfig := {
  video := { format := "mp4", resolution := .original,
             quality := "medium", codec := "h264" }
  audio := { format := "mp3", bitrate := "256k", sampleRate := 44100 }
  image := { format := "jpeg", quality := 85, width := none, height := none } }

/-- Caller-supplied piece of the video configuration: a field is `none`
when the key is absent from the object literal. -/
structure VideoConfigPatch where
  format : Option String := none
  resolution : Option Resolution := none
  quality : Option String := none
  codec : Option String := none
deriving DecidableEq

/-- Caller-supplied piece of the audio configuration. -/
structure AudioConfigPatch where
  format : Option String := none
  bitrate : Option String := none
  sampleRate : Option ℕ := none
deriving DecidableEq

/-- Caller-supplied piece of the image configuration. -/
structure ImageConfigPatch where
  format : Option String := none
  quality : Option ℕ := none
  width : Option ℕ := none
  height : Option ℕ := none
deriving DecidableEq

/-- Caller-supplied piece of the whole configuration (`config = {}` when
the caller omits it). -/
structure ConversionConfigPatch where
  video : VideoConfigPatch := {}
  audio : AudioConfigPatch := {}
  image : ImageConfigPatch := {}
deriving DecidableEq

/-- JavaScript spread overlay `{...base, ...patch}` for the video
configuration: each key present in the patch wins. -/
def mergeVideoConfig (base : VideoConfig) (patch : VideoConfigPatch) : VideoConfig := {
  format := patch.format.getD base.format
  resolution := patch.resolution.getD base.resolution
  quality := patch.quality.getD base.quality
  codec := patch.codec.getD base.codec }

/-- Spread overlay for the audio configuration. -/
def mergeAudioConfig (base : AudioConfig) (patch : AudioConfigPatch) : AudioConfig := {
  format := patch.format.getD base.format
  bitrate := patch.bitrate.getD base.bitrate
  sampleRate := patch.sampleRate.getD base.sampleRate }

/-- Spread overlay for the image configuration. -/
def mergeImageConfig (base : ImageConfig) (patch : ImageConfigPatch) : ImageConfig := {
  format := patch.format.getD base.format
  quality := patch.quality.getD base.quality
  width := match patch.width with | some w => some w | none => base.width
  height := match patch.height with | some h => some h | none => base.height }

/-- The `mergedConfig` object of lines 727-731: overlay of the caller
patch over `DEFAULT_CONFIG`, kind by kind. -/
def mergeConfig (patch : ConversionConfigPatch) : ConversionConfig := {
  video := mergeVideoConfig DEFAULT_CONFIG.video patch.video
  audio := mergeAudioConfig DEFAULT_CONFIG.audio patch.audio
  image := mergeImageConfig DEFAULT_CONFIG.image patch.image }

/-! ## File-type detection (`detectFileType`, lines 145-192) -/

/-- Result values of `detectFileType`. -/
inductive FileKind where
  | video
  | audio
  | image
  | unknown
deriving DecidableEq, Repr

/-- The `File | Blob` input: `name` is `some` exactly when the input is
a `File`; `mimeType` is `file.type`. -/
structure InputFile where
  name : Option String := none
  mimeType : String := ""
  size : ℕ := 0
deriving DecidableEq

/-- Structural model of `String.prototype.startsWith`. -/
def strStartsWith (s p : String) : Bool :=
  s.data.take p.data.length == p.data

/-- Structural model of splitting a name at every dot, on the
character list. -/
def splitOnDot : List Char → List (List Char)
  | [] => [[]]
  | c :: cs =>
    if c == '.' then [] :: splitOnDot cs
    else
      match splitOnDot cs with
      | [] => [[c]]
      | h :: t => (c :: h) :: t

/-- Model of line 151: split the file name at dots, pop the last
segment and lowercase it; `split` always yields a non-empty array, so
this is the last dot-separated segment, lowercased. -/
def lastSegmentLower (name : String) : String :=
  ⟨((splitOnDot name.data).getLastD []).map Char.toLower⟩

/-- The `videoExts` array of line 155. -/
def videoExts : List String := ["mp4", "webm", "avi", "mov", "mkv", "flv"]

/-- The `audioExts` array of line 156. -/
def audioExts : List String := ["mp3", "wav", "aac", "ogg", "flac", "m4a"]

/-- The `imageExts` array of line 157. -/
def imageExts : List String := ["jpg", "jpeg", "png", "gif", "webp", "bmp"]

/-- The MIME-type checks of lines 177-191. -/
def detectByMime (mimeType : String) : FileKind :=
  if strStartsWith mimeType "video/" then .video
  else if strStartsWith mimeType "audio/" then .audio
  else if strStartsWith mimeType "image/" then .image
  else .unknown

/-- Model of `detectFileType` (lines 145-192).  For a `File` with an
empty MIME type and a non-empty extension the extension tables are
consulted first; in every other case (including a table miss) control
falls through to the MIME-type checks. -/
def detectFileType (file : InputFile) : FileKind :=
  match file.name with
  | some name =>
    let extension := lastSegmentLower name
    if file.mimeType == "" && !(extension == "") then
      if videoExts.contains extension then .video
      else if audioExts.contains extension then .audio
      else if imageExts.contains extension then .image
      else detectByMime file.mimeType
    else detectByMime file.mimeType
  | none => detectByMime file.mimeType

/-! ## Output filename (`generateOutputFilename`, lines 197-201) -/

/-- Model of the replace call of line 199: strip a final
extension made of one or more characters none of which is a dot or a
slash, together with its leading dot; otherwise leave the name alone. -/
def stripExtension (s : String) : String :=
  let rev := s.data.reverse
  let ext := rev.takeWhile (fun c => !(c == '.' || c == '/'))
  match rev.drop ext.length with
  | '.' :: rest => if ext.isEmpty then s else ⟨rest.reverse⟩
  | _ => s

/-- Model of `generateOutputFilename` (lines 197-201). -/
def generateOutputFilename (inputFile : InputFile) (targetFormat : String) : String :=
  let originalName := inputFile.name.getD "converted_file"
  stripExtension originalName ++ "." ++ targetFormat

/-! ## Orchestrator (`convertFileWithWebCodecs`, lines 701-802) -/

/-- Error outcomes of a conversion attempt. -/
inductive ConvError where
  | unsupportedEnvironment
  | unsupportedFileType
  | failure (msg : String)
  | conversionFailed (cause : ConvError)
deriving DecidableEq

/-- The produced output blob of a pipeline; only its byte size is
observed by the orchestrator. -/
structure OutBlob where
  size : ℕ
deriving DecidableEq

/-- `ConversionResult` as assembled on lines 782-788. -/
structure ConversionResult where
  file : OutBlob
  filename : String
  originalSize : ℕ
  convertedSize : ℕ
  format : String
deriving DecidableEq

/-- The three per-kind pipelines (`convertVideo`, `convertAudio`,
`convertImage`), abstracted as functions of the input file, the resolved
output format, and the merged per-kind configuration. -/
structure ConvEnv where
  runVideo : InputFile → String → VideoConfig → Except ConvError OutBlob
  runAudio : InputFile → String → AudioConfig → Except ConvError OutBlob
  runImage : InputFile → String → ImageConfig → Except ConvError OutBlob

/-- Line 736: either run `detectFileType` or force the video kind. -/
def resolvedFileType (inputFile : InputFile) (autoDetect : Bool) : FileKind :=
  if autoDetect then detectFileType inputFile else .video

/-- The per-kind `format` field lookup of line 748,
`mergedConfig[fileType].format`; the `unknown` case is unreachable
behind the guard of lines 738-741. -/
def configFormat (cfg : ConversionConfig) (kind : FileKind) : String :=
  match kind with
  | .video => cfg.video.format
  | .audio => cfg.audio.format
  | .image => cfg.image.format
  | .unknown => ""

/-- Lines 746-752: `let outputFormat = targetFormat; if (!outputFormat)
outputFormat = mergedConfig[fileType].format`.  The only falsy string is
the empty one. -/
def resolveOutputFormat (targetFormat : Option String)
    (cfg : ConversionConfig) (kind : FileKind) : String :=
  match targetFormat with
  | some f => if f == "" then configFormat cfg kind else f
  | none => configFormat cfg kind

/-- `ConversionOptions` (destructured on lines 713-718): `none` models
an absent optional field. -/
structure ConversionOptions where
  inputFile : InputFile
  targetFormat : Option String := none
  config : ConversionConfigPatch := {}
  autoDetect : Option Bool := none

/-- Model of `convertFileWithWebCodecs` (lines 701-802): capability
gate, config merge, type detection (or unconditional `video` when
`autoDetect` is false), output-format resolution, dispatch to the
matching pipeline with failures wrapped as `conversionFailed`, and
result-descriptor construction. -/
def convertFileWithWebCodecs (host : Host) (env : ConvEnv)
    (options : ConversionOptions) : Except ConvError ConversionResult :=
  let inputFile := options.inputFile
  let autoDetect := options.autoDetect.getD true
  if !(isWebCodecsSupported host) then
    .error .unsupportedEnvironment
  else
    let mergedConfig := mergeConfig options.config
    let fileType := resolvedFileType inputFile autoDetect
    if fileType = .unknown then
      .error .unsupportedFileType
    else
      let outputFormat := resolveOutputFormat options.targetFormat mergedConfig fileType
      let pipelineOutcome : Except ConvError OutBlob :=
        match fileType with
        | .video => env.runVideo inputFile outputFormat mergedConfig.video
        | .audio => env.runAudio inputFile outputFormat mergedConfig.audio
        | .image => env.runImage inputFile outputFormat mergedConfig.image
        | .unknown => .error .unsupportedFileType
      match pipelineOutcome with
      | .error e => .error (.conversionFailed e)
      | .ok resultBlob =>
        .ok {
          file := resultBlob
          filename := generateOutputFilename inputFile outputFormat
          originalSize := inputFile.size
          convertedSize := resultBlob.size
          format := outputFormat }

/-! ## Spec-side definitions and concrete fixtures used by the claims -/

/-- Target dimensions for one bucket exactly as the spec words it: with
source aspect ratio `r = w / h`, if `r` exceeds the bucket aspect ratio
then width = bucket width and height = round(width / r); else height =
bucket height and width = round(height * r). -/
def specBucketDims (w h bw bh : ℕ) : ℤ × ℤ :=
  let r : ℚ := (w : ℚ) / (h : ℚ)
  if r > (bw : ℚ) / (bh : ℚ) then ((bw : ℤ), jsRound ((bw : ℚ) / r))
  else (jsRound ((bh : ℚ) * r), (bh : ℤ))

/-- Resolved target dimensions as claimed by the spec for every bucket,
with the bucket sizes 720p:1280×720, 1080p:1920×1080, 4k:3840×2160 and
the original bucket leaving the source unchanged. -/
def specTargetDims (w h : ℕ) (res : Resolution) : ℤ × ℤ :=
  match res with
  | .original => ((w : ℤ), (h : ℤ))
  | .p720 => specBucketDims w h 1280 720
  | .p1080 => specBucketDims w h 1920 1080
  | .uhd4k => specBucketDims w h 3840 2160

/-- Quality factor exactly as the claim words it: 0.1 for low, 0.2 for
medium, 0.4 for high, and 0.2 for any other quality string. -/
def specQualityFactor (quality : String) : ℚ :=
  if quality = "low" then 1/10
  else if quality = "medium" then 2/10
  else if quality = "high" then 4/10
  else 2/10

/-- A bitrate string of the claimed shape `<digits>[k]`: a non-empty run
of digits followed by nothing or by a single final k. -/
def digitsThenOptionalK (s : String) : Bool :=
  let ds := s.data.takeWhile Char.isDigit
  !ds.isEmpty &&
    (s.data.drop ds.length == [] || s.data.drop ds.length == ['k'])

/-- Helper for reasoning about the interleaving loop: apply a list of
index/value writes to a buffer, left to right. -/
def setWrites (init : List ℚ) (ws : List (ℕ × ℚ)) : List ℚ :=
  ws.foldl (fun buf p => buf.set p.1 p.2) init

/-- Helper: the write sequence the nested loop of `interleaveFrame`
performs, in iteration order (outer loop over frames, inner over
channels). -/
def interleaveWrites (frameLen n : ℕ) (channels : List (List ℚ)) : List (ℕ × ℚ) :=
  (List.range frameLen).flatMap
    (fun frame => (List.range n).map
      (fun channel => (frame * n + channel, (channels.getD channel []).getD frame 0)))

/-- Fixture: pipelines that succeed with an empty blob. -/
def trivialEnv : ConvEnv := {
  runVideo := fun _ _ _ => .ok { size := 0 }
  runAudio := fun _ _ _ => .ok { size := 0 }
  runImage := fun _ _ _ => .ok { size := 0 } }

/-- Fixture: a host with every WebCodecs primitive available. -/
def hostAll : Host :=
  { hasWindow := true, videoDecoder := true, videoEncoder := true,
    audioDecoder := true, audioEncoder := true }

/-- Fixture: a host whose only missing primitive is the audio encoder. -/
def hostNoAudioEnc : Host := { hostAll with audioEncoder := false }

/-- Fixture: a pure image conversion request. -/
def pureImageOptions : ConversionOptions :=
  { inputFile := { name := some "photo.png", mimeType := "image/png", size := 10 } }

/-- Fixture: an audio file submitted with `autoDetect: false`. -/
def noDetectOptions : ConversionOptions :=
  { inputFile := { name := some "song.mp3", mimeType := "audio/mpeg", size := 5 },
    autoDetect := some false }

/-- Fixture: a two-channel three-sample decoded audio buffer. -/
def abExample : AudioBufferModel :=
  { numberOfChannels := 2, length := 3,
    channelData := [[1, 2, 3], [4, 5, 6]] }

/-! ## Rounding lemmas -/

/-- Rounding preserves a gap of at least one. -/
theorem jsRound_lt_of_add_one_le {a b : ℚ} (hab : a + 1 ≤ b) : jsRound a < jsRound b := by
  unfold jsRound
  have h1 : ⌊a + 1/2⌋ + 1 = ⌊a + 1/2 + 1⌋ := (Int.floor_add_one (a + 1/2)).symm
  have h2 : ⌊a + 1/2 + 1⌋ ≤ ⌊b + 1/2⌋ := Int.floor_le_floor (by linarith)
  omega

/-- Rounding moves a rational by at most one half. -/
theorem abs_jsRound_sub_le (q : ℚ) : |(jsRound q : ℚ) - q| ≤ 1/2 := by
  rw [abs_le]
  have h1 : ((jsRound q : ℤ) : ℚ) ≤ q + 1/2 := Int.floor_le (q + 1/2)
  have h2 : q + 1/2 < ((jsRound q : ℤ) : ℚ) + 1 := Int.lt_floor_add_one (q + 1/2)
  constructor <;> linarith

/-! ## Claim C1 -/

/-- Claim C1: for every source with positive natural dimensions and
every resolution setting, the dimensions `convertVideo` resolves are
exactly the ones the spec formula prescribes (bucket-width pinned with
rounded height when the source ratio exceeds the bucket ratio, else
bucket-height pinned with rounded width; the original bucket changes
nothing); in particular a 1920×1080 source under the 720p bucket
resolves to exactly 1280×720. -/
theorem C1_resolution_buckets :
    (∀ (w h : ℕ), 0 < w → 0 < h → ∀ res : Resolution,
      resolveDimensions w h res = specTargetDims w h res) ∧
    resolveDimensions 1920 1080 Resolution.p720 = (1280, 720) := by
  constructor
  · intro w h _ _ res
    cases res <;> rfl
  · simp only [resolveDimensions, resolutionMap]
    norm_num [jsRound]

/-- Witness for C1 at the concrete 1920×1080 source and 720p bucket. -/
theorem C1_witness :
    resolveDimensions 1920 1080 Resolution.p720 = specTargetDims 1920 1080 Resolution.p720 ∧
    resolveDimensions 1920 1080 Resolution.p720 = (1280, 720) :=
  ⟨C1_resolution_buckets.1 1920 1080 (by norm_num) (by norm_num) Resolution.p720,
   C1_resolution_buckets.2⟩

/-! ## Claim C4 -/

/-- Claim C4: for every target width, height and quality string, the
resolved video bitrate is `round(width * height * factor * 30 / 1000) *
1000` with factor 0.1 for low, 0.2 for medium, 0.4 for high, and the
medium factor 0.2 for any other string. -/
theorem C4_bitrate_formula :
    ∀ (quality : String) (w h : ℕ),
      getBitrate quality w h =
        jsRound ((w : ℚ) * (h : ℚ) * specQualityFactor quality * 30 / 1000) * 1000 := by
  intro q w h
  unfold getBitrate qualityMap specQualityFactor
  by_cases h1 : q = "low" <;> by_cases h2 : q = "medium" <;> by_cases h3 : q = "high" <;>
    simp [h1, h2, h3]

/-! ## Claim C9 -/

/-- Claim C9 (amended): at every fixed target resolution of at least 334
pixels, the resolved video bitrate is strictly increasing across the
quality tiers low, medium, high.  (For smaller pixel counts the rounding
to the nearest multiple of 1000 collapses adjacent tiers, see the
counterexample.) -/
theorem C9_bitrate_increasing (w h : ℕ) (hp : 334 ≤ w * h) :
    getBitrate "low" w h < getBitrate "medium" w h ∧
    getBitrate "medium" w h < getBitrate "high" w h := by
  have hq : (334 : ℚ) ≤ (w : ℚ) * (h : ℚ) := by
    calc (334 : ℚ) ≤ ((w * h : ℕ) : ℚ) := by exact_mod_cast hp
    _ = (w : ℚ) * (h : ℚ) := by push_cast; ring
  have hlo : qualityMap "low" = some (1/10) := rfl
  have hme : qualityMap "medium" = some (2/10) := rfl
  have hhi : qualityMap "high" = some (4/10) := rfl
  simp only [getBitrate, hlo, hme, hhi]
  constructor <;>
    exact mul_lt_mul_of_pos_right
      (jsRound_lt_of_add_one_le (by linarith)) (by norm_num)

/-- Witness for C9 at the 1280×720 resolution. -/
theorem C9_witness :
    getBitrate "low" 1280 720 < getBitrate "medium" 1280 720 ∧
    getBitrate "medium" 1280 720 < getBitrate "high" 1280 720 :=
  C9_bitrate_increasing 1280 720 (by norm_num)

/-- Counterexample to C9 as frozen: at the fixed resolution 1×1 the low
and medium bitrates both resolve to 0, so the claimed strict increase
fails. -/
theorem C9_counterexample :
    getBitrate "low" 1 1 = 0 ∧ getBitrate "medium" 1 1 = 0 ∧
    ¬ (getBitrate "low" 1 1 < getBitrate "medium" 1 1) := by
  refine ⟨?_, ?_, ?_⟩ <;> norm_num +decide [getBitrate, qualityMap, jsRound]

/-! ## Claim C5 -/

/-- Claim C5 (amended): for positive source dimensions and every
non-original bucket, the recomputed coordinate preserves the source
aspect ratio to within one pixel: when the source ratio exceeds the
bucket ratio the resolved height is within one pixel of
`width * (h / w)`, and otherwise the resolved width is within one pixel
of `height * (w / h)`.  (The frozen claim asserted both bounds
unconditionally; the counterexample refutes the bound on the pinned
coordinate.) -/
theorem C5_aspect_ratio (w h : ℕ) (hw : 0 < w) (hh : 0 < h)
    (res : Resolution) (tw th : ℕ) (hres : resolutionMap res = some (tw, th)) :
    (((w : ℚ) / (h : ℚ) > (tw : ℚ) / (th : ℚ)) →
      |(((resolveDimensions w h res).2 : ℚ)) -
        (((resolveDimensions w h res).1 : ℚ)) * ((h : ℚ) / (w : ℚ))| ≤ 1) ∧
    (¬ ((w : ℚ) / (h : ℚ) > (tw : ℚ) / (th : ℚ)) →
      |(((resolveDimensions w h res).1 : ℚ)) -
        (((resolveDimensions w h res).2 : ℚ)) * ((w : ℚ) / (h : ℚ))| ≤ 1) := by
  constructor
  · intro hgt
    simp only [resolveDimensions, hres, if_pos hgt]
    have key : (tw : ℚ) / ((w : ℚ) / (h : ℚ)) = (tw : ℚ) * ((h : ℚ) / (w : ℚ)) := by
      rw [div_div_eq_mul_div, mul_div_assoc]
    rw [key]
    calc |((jsRound ((tw : ℚ) * ((h : ℚ) / (w : ℚ))) : ℚ)) - (tw : ℚ) * ((h : ℚ) / (w : ℚ))|
        ≤ 1/2 := abs_jsRound_sub_le _
      _ ≤ 1 := by norm_num
  · intro hle
    simp only [resolveDimensions, hres, if_neg hle]
    calc |((jsRound ((th : ℚ) * ((w : ℚ) / (h : ℚ))) : ℚ)) - (th : ℚ) * ((w : ℚ) / (h : ℚ))|
        ≤ 1/2 := abs_jsRound_sub_le _
      _ ≤ 1 := by norm_num

/-- Witness for C5 at the 1920×1080 source and 720p bucket. -/
theorem C5_witness :
    (((1920 : ℚ) / (1080 : ℚ) > (1280 : ℚ) / (720 : ℚ)) →
      |(((resolveDimensions 1920 1080 Resolution.p720).2 : ℚ)) -
        (((resolveDimensions 1920 1080 Resolution.p720).1 : ℚ)) * ((1080 : ℚ) / (1920 : ℚ))| ≤ 1) ∧
    (¬ ((1920 : ℚ) / (1080 : ℚ) > (1280 : ℚ) / (720 : ℚ)) →
      |(((resolveDimensions 1920 1080 Resolution.p720).1 : ℚ)) -
        (((resolveDimensions 1920 1080 Resolution.p720).2 : ℚ)) * ((1920 : ℚ) / (1080 : ℚ))| ≤ 1) :=
  C5_aspect_ratio 1920 1080 (by norm_num) (by norm_num) Resolution.p720 1280 720 rfl

/-- Counterexample to C5 as frozen: a 100×1 source under the 720p bucket
resolves to 1280×13, and the pinned width 1280 is 20 pixels away from
`height * (w / h) = 1300`, violating the claimed one-pixel bound. -/
theorem C5_counterexample :
    resolveDimensions 100 1 Resolution.p720 = (1280, 13) ∧
    ¬ (|(((resolveDimensions 100 1 Resolution.p720).1 : ℚ)) -
        (((resolveDimensions 100 1 Resolution.p720).2 : ℚ)) * ((100 : ℚ) / (1 : ℚ))| ≤ 1) := by
  have hval : resolveDimensions 100 1 Resolution.p720 = (1280, 13) := by
    simp only [resolveDimensions, resolutionMap]
    norm_num [jsRound]
  refine ⟨hval, ?_⟩
  rw [hval]
  norm_num

/-! ## Claim C7 -/

/-- Helper: a list of non-digit characters has no digit run. -/
theorem firstDigitRun_eq_none {l : List Char} (h : ∀ c ∈ l, c.isDigit = false) :
    firstDigitRun l = none := by
  induction l with
  | nil => rfl
  | cons c cs ih =>
    have hc := h c (List.mem_cons_self c cs)
    simp only [firstDigitRun, hc]
    exact ih (fun x hx => h x (List.mem_cons_of_mem c hx))

/-- Helper: on a non-empty all-digit run the regex captures the whole
run. -/
theorem firstDigitRun_all_digits {l : List Char} (hne : l ≠ [])
    (h : ∀ c ∈ l, c.isDigit = true) : firstDigitRun l = some l := by
  cases l with
  | nil => exact absurd rfl hne
  | cons c cs =>
    have hc := h c (List.mem_cons_self c cs)
    simp only [firstDigitRun, hc, if_pos]
    have : cs.takeWhile Char.isDigit = cs :=
      List.takeWhile_eq_self_iff.mpr (fun x hx => h x (List.mem_cons_of_mem c hx))
    rw [this]

/-- Helper: with a trailing k the regex still captures just the digits. -/
theorem firstDigitRun_digits_k {l : List Char} (hne : l ≠ [])
    (h : ∀ c ∈ l, c.isDigit = true) : firstDigitRun (l ++ ['k']) = some l := by
  cases l with
  | nil => exact absurd rfl hne
  | cons c cs =>
    have hc := h c (List.mem_cons_self c cs)
    simp only [List.cons_append, firstDigitRun, hc, if_pos, List.append_eq]
    have hcs : cs.takeWhile Char.isDigit = cs :=
      List.takeWhile_eq_self_iff.mpr (fun x hx => h x (List.mem_cons_of_mem c hx))
    rw [List.takeWhile_append, hcs]
    simp

/-- Helper: an all-digit run does not contain the letter k. -/
theorem digits_no_k {l : List Char} (h : ∀ c ∈ l, c.isDigit = true) :
    l.contains 'k' = false := by
  have : 'k' ∉ l := by
    intro hk
    have := h _ hk
    simp [Char.isDigit] at this
  simp [List.contains, List.elem_eq_mem, this]

/-- Claim C7 (amended): on a string of the claimed shape, a non-empty
digit run optionally followed by the letter k, `parseBitrate` returns
the decimal value of the digits, multiplied by 1000 exactly when the k
suffix is present — in particular the 128k witness parses to 128000 —
and the 256000 default is returned for every string containing no digit.
(The frozen claim asserted the default for every string not of that
shape; the counterexample refutes that.) -/
theorem C7_parseBitrate :
    (∀ ds : List Char, ds ≠ [] → (∀ c ∈ ds, c.isDigit = true) →
      parseBitrate ⟨ds⟩ = digitRunVal ds ∧
      parseBitrate ⟨ds ++ ['k']⟩ = digitRunVal ds * 1000) ∧
    (∀ s : String, (∀ c ∈ s.data, c.isDigit = false) → parseBitrate s = 256000) ∧
    parseBitrate "128k" = 128000 := by
  refine ⟨?_, ?_, by decide⟩
  · intro ds hne hd
    constructor
    · show (match firstDigitRun ds with
        | some run => if ds.contains 'k' then digitRunVal run * 1000 else digitRunVal run
        | none => 256000) = digitRunVal ds
      rw [firstDigitRun_all_digits hne hd, digits_no_k hd]
      simp
    · show (match firstDigitRun (ds ++ ['k']) with
        | some run => if (ds ++ ['k']).contains 'k' then digitRunVal run * 1000
          else digitRunVal run
        | none => 256000) = digitRunVal ds * 1000
      rw [firstDigitRun_digits_k hne hd]
      simp
  · intro s hs
    show (match firstDigitRun s.data with
      | some run => if s.data.contains 'k' then digitRunVal run * 1000 else digitRunVal run
      | none => 256000) = 256000
    rw [firstDigitRun_eq_none hs]

/-- Witness for C7 on the digit run 128 with and without the k suffix. -/
theorem C7_witness :
    parseBitrate ⟨['1', '2', '8']⟩ = digitRunVal ['1', '2', '8'] ∧
    parseBitrate ⟨['1', '2', '8'] ++ ['k']⟩ = digitRunVal ['1', '2', '8'] * 1000 :=
  C7_parseBitrate.1 ['1', '2', '8'] (by decide) (by decide)

/-- Counterexample to C7 as frozen: the string 12x is not of the shape
digits-then-optional-k, yet `parseBitrate` returns 12 (the first digit
run), not the claimed 256000 default. -/
theorem C7_counterexample :
    digitsThenOptionalK "12x" = false ∧ parseBitrate "12x" = 12 ∧ (12 : ℕ) ≠ 256000 := by
  refine ⟨by decide, by decide, by decide⟩

/-! ## Claim C3 -/

/-- Helper: repeatedly pushing appends the pushed list in order. -/
theorem foldl_pushChunk (l : List Chunk) :
    ∀ acc : List Chunk, l.foldl pushChunk acc = acc ++ l := by
  induction l with
  | nil => intro acc; simp
  | cons c cs ih =>
    intro acc
    simp only [List.foldl_cons, pushChunk, ih, List.append_assoc, List.singleton_append]

/-- Helper: splitting a flattened list at the recorded lengths undoes
the flattening. -/
theorem splitAtSizes_flatten (cs : List Chunk) :
    splitAtSizes (cs.map List.length) cs.flatten = cs := by
  induction cs with
  | nil => rfl
  | cons c rest ih =>
    simp only [List.map_cons, List.flatten_cons, splitAtSizes]
    rw [List.take_left, List.drop_left, ih]

/-- Claim C3: for every sequence of chunks emitted by an encoder output
callback, the assembled artifact is exactly their concatenation in
emission order, its byte length is the sum of the chunk lengths, and
splitting it at the recorded chunk boundaries recovers the chunks. -/
theorem C3_chunk_assembly (emitted : List Chunk) :
    assembleChunks (collectChunks emitted) = emitted.flatten ∧
    (assembleChunks (collectChunks emitted)).length = (emitted.map List.length).sum ∧
    splitAtSizes (chunkBoundaries (collectChunks emitted))
      (assembleChunks (collectChunks emitted)) = emitted := by
  have hcollect : collectChunks emitted = emitted := by
    simpa [collectChunks] using foldl_pushChunk emitted []
  refine ⟨by rw [hcollect]; rfl, ?_, ?_⟩
  · rw [hcollect]
    exact List.length_flatten emitted
  · rw [hcollect, chunkBoundaries]
    exact splitAtSizes_flatten emitted

/-! ## Claim C2 -/

/-- Claim C2: the capability probe returns true exactly when all four
WebCodecs primitives are present in the host, and whenever it is false
the orchestrator fails with the unsupported-environment error before any
conversion work, whatever the input and pipelines. -/
theorem C2_capability_gate :
    (∀ host : Host, isWebCodecsSupported host = true ↔
      (presentVideoDecoder host = true ∧ presentVideoEncoder host = true ∧
       presentAudioDecoder host = true ∧ presentAudioEncoder host = true)) ∧
    (∀ (host : Host) (env : ConvEnv) (options : ConversionOptions),
      isWebCodecsSupported host = false →
      convertFileWithWebCodecs host env options = .error .unsupportedEnvironment) := by
  constructor
  · intro host
    cases host with
    | mk w vd ve ad ae =>
      cases w <;> cases vd <;> cases ve <;> cases ad <;> cases ae <;>
        simp [isWebCodecsSupported, presentVideoDecoder, presentVideoEncoder,
          presentAudioDecoder, presentAudioEncoder]
  · intro host env options hfalse
    simp [convertFileWithWebCodecs, hfalse]

/-- Witness for C2: a host missing only the audio encoder rejects even a
pure image request with the unsupported-environment error. -/
theorem C2_witness :
    isWebCodecsSupported hostNoAudioEnc = false ∧
    convertFileWithWebCodecs hostNoAudioEnc trivialEnv pureImageOptions =
      .error .unsupportedEnvironment :=
  ⟨rfl, C2_capability_gate.2 hostNoAudioEnc trivialEnv pureImageOptions rfl⟩

/-! ## Claim C8 -/

/-- Helper: on any successful conversion, the result format is the
resolved output format and the filename derives from it. -/
theorem convert_ok_characterization (host : Host) (env : ConvEnv)
    (options : ConversionOptions) (r : ConversionResult)
    (hok : convertFileWithWebCodecs host env options = .ok r) :
    r.format = resolveOutputFormat options.targetFormat (mergeConfig options.config)
      (resolvedFileType options.inputFile (options.autoDetect.getD true)) ∧
    r.filename = generateOutputFilename options.inputFile r.format := by
  simp only [convertFileWithWebCodecs] at hok
  split at hok
  · exact absurd hok (by simp)
  · split at hok
    · exact absurd hok (by simp)
    · split at hok
      · exact absurd hok (by simp)
      · simp only [Except.ok.injEq] at hok
        subst hok
        exact ⟨rfl, rfl⟩

/-- Claim C8 (amended): on every successful conversion, when the caller
omits `targetFormat` — or supplies the empty string, which the code
treats as absent — the resolved output format (carried in the result and
in the derived filename extension) is the format field of the merged
per-kind config for the resolved kind; a non-empty supplied
`targetFormat` takes precedence.  (The frozen claim let every supplied
`targetFormat` take precedence; the empty string refutes that.) -/
theorem C8_output_format (host : Host) (env : ConvEnv) (options : ConversionOptions)
    (r : ConversionResult)
    (hok : convertFileWithWebCodecs host env options = .ok r) :
    (options.targetFormat = none ∨ options.targetFormat = some "" →
      r.format = configFormat (mergeConfig options.config)
        (resolvedFileType options.inputFile (options.autoDetect.getD true))) ∧
    (∀ f : String, options.targetFormat = some f → ¬ f = "" → r.format = f) ∧
    r.filename = generateOutputFilename options.inputFile r.format := by
  obtain ⟨hfmt, hname⟩ := convert_ok_characterization host env options r hok
  refine ⟨?_, ?_, hname⟩
  · rintro (hcase | hcase) <;> rw [hfmt, hcase] <;> simp [resolveOutputFormat]
  · intro f hf hne
    rw [hfmt, hf]
    simp [resolveOutputFormat, hne]

/-- Witness for C8: a pure image request with no target format resolves
to the merged image default jpeg, also in the filename. -/
theorem C8_witness :
    (pureImageOptions.targetFormat = none ∨ pureImageOptions.targetFormat = some "" →
      ConversionResult.format
        { file := { size := 0 }, filename := "photo.jpeg", originalSize := 10,
          convertedSize := 0, format := "jpeg" } =
      configFormat (mergeConfig pureImageOptions.config)
        (resolvedFileType pureImageOptions.inputFile
          (pureImageOptions.autoDetect.getD true))) ∧
    (∀ f : String, pureImageOptions.targetFormat = some f → ¬ f = "" →
      ConversionResult.format
        { file := { size := 0 }, filename := "photo.jpeg", originalSize := 10,
          convertedSize := 0, format := "jpeg" } = f) ∧
    ConversionResult.filename
        { file := { size := 0 }, filename := "photo.jpeg", originalSize := 10,
          convertedSize := 0, format := "jpeg" } =
      generateOutputFilename pureImageOptions.inputFile "jpeg" :=
  C8_output_format hostAll trivialEnv pureImageOptions
    { file := { size := 0 }, filename := "photo.jpeg", originalSize := 10,
      convertedSize := 0, format := "jpeg" } rfl

/-- Counterexample to C8 as frozen: supplying the empty string as
`targetFormat` does not take precedence — the conversion falls back to
the merged default jpeg. -/
theorem C8_counterexample :
    convertFileWithWebCodecs hostAll trivialEnv
      { inputFile := { name := some "photo.png", mimeType := "image/png", size := 10 },
        targetFormat := some "" } =
      .ok { file := { size := 0 }, filename := "photo.jpeg", originalSize := 10,
            convertedSize := 0, format := "jpeg" } ∧
    ¬ ("jpeg" = "") :=
  ⟨rfl, by decide⟩

/-! ## Claim C10 -/

/-- Claim C10: with `autoDetect` set to false the orchestrator resolves
the kind to video unconditionally — type detection is bypassed, the
unsupported-file-type error can never arise, and past the capability
gate the call is exactly a dispatch to the video pipeline. -/
theorem C10_autodetect_video (host : Host) (env : ConvEnv) (options : ConversionOptions)
    (hauto : options.autoDetect = some false) :
    resolvedFileType options.inputFile (options.autoDetect.getD true) = .video ∧
    (∀ e, convertFileWithWebCodecs host env options = .error e →
      e ≠ .unsupportedFileType) ∧
    (isWebCodecsSupported host = true →
      convertFileWithWebCodecs host env options =
        (match env.runVideo options.inputFile
            (resolveOutputFormat options.targetFormat (mergeConfig options.config) .video)
            (mergeConfig options.config).video with
         | .error e => .error (.conversionFailed e)
         | .ok b => .ok {
             file := b
             filename := generateOutputFilename options.inputFile
               (resolveOutputFormat options.targetFormat (mergeConfig options.config) .video)
             originalSize := options.inputFile.size
             convertedSize := b.size
             format := resolveOutputFormat options.targetFormat
               (mergeConfig options.config) .video })) := by
  have hft : resolvedFileType options.inputFile (options.autoDetect.getD true) = .video := by
    rw [hauto]; rfl
  have hmain : isWebCodecsSupported host = true →
      convertFileWithWebCodecs host env options =
        (match env.runVideo options.inputFile
            (resolveOutputFormat options.targetFormat (mergeConfig options.config) .video)
            (mergeConfig options.config).video with
         | .error e => .error (.conversionFailed e)
         | .ok b => .ok {
             file := b
             filename := generateOutputFilename options.inputFile
               (resolveOutputFormat options.targetFormat (mergeConfig options.config) .video)
             originalSize := options.inputFile.size
             convertedSize := b.size
             format := resolveOutputFormat options.targetFormat
               (mergeConfig options.config) .video }) := by
    intro hsup
    simp only [convertFileWithWebCodecs, hsup, hauto, Option.getD_some,
      resolvedFileType, Bool.false_eq_true, if_false, Bool.not_true]
    rfl
  refine ⟨hft, ?_, hmain⟩
  intro e herr
  by_cases hsup : isWebCodecsSupported host = true
  · rw [hmain hsup] at herr
    rcases henv : env.runVideo options.inputFile
        (resolveOutputFormat options.targetFormat (mergeConfig options.config) .video)
        (mergeConfig options.config).video with e2 | b
    · rw [henv] at herr
      simp only [Except.error.injEq] at herr
      subst herr
      intro hcon
      cases hcon
    · rw [henv] at herr
      cases herr
  · have hsup2 : isWebCodecsSupported host = false := by
      revert hsup; cases isWebCodecsSupported host <;> simp
    simp only [convertFileWithWebCodecs, hsup2, Bool.not_false, if_true] at herr
    simp only [Except.error.injEq] at herr
    subst herr
    intro hcon
    cases hcon

/-- Witness for C10: an audio file submitted with autoDetect false is
treated as video and never yields the unsupported-file-type error. -/
theorem C10_witness :
    resolvedFileType noDetectOptions.inputFile (noDetectOptions.autoDetect.getD true) =
      FileKind.video ∧
    (∀ e, convertFileWithWebCodecs hostAll trivialEnv noDetectOptions = .error e →
      e ≠ .unsupportedFileType) :=
  ⟨(C10_autodetect_video hostAll trivialEnv noDetectOptions rfl).1,
   (C10_autodetect_video hostAll trivialEnv noDetectOptions rfl).2.1⟩

/-! ## Claim C6 -/

/-- Helper: a nested frame-and-channel set loop is the flat write
sequence. -/
theorem foldl_set_flatMap (n : ℕ) (v : ℕ → ℕ → ℚ) (l : List ℕ) :
    ∀ init : List ℚ,
      l.foldl (fun buf frame =>
        (List.range n).foldl
          (fun buf channel => buf.set (frame * n + channel) (v channel frame)) buf) init =
      setWrites init (l.flatMap (fun frame =>
        (List.range n).map (fun channel => (frame * n + channel, v channel frame)))) := by
  induction l with
  | nil => intro init; rfl
  | cons f fs ih =>
    intro init
    simp only [List.foldl_cons, List.flatMap_cons, setWrites, List.foldl_append, List.foldl_map]
    exact ih _

/-- Helper: the interleaving loop performs exactly its write sequence on
the zero-filled buffer. -/
theorem interleaveFrame_eq_setWrites (frameLen n : ℕ) (channels : List (List ℚ)) :
    interleaveFrame frameLen n channels =
      setWrites (List.replicate (frameLen * n) 0) (interleaveWrites frameLen n channels) := by
  unfold interleaveFrame interleaveWrites
  exact foldl_set_flatMap n (fun channel frame => (channels.getD channel []).getD frame 0)
    (List.range frameLen) _

/-- Helper: writes never change the buffer length. -/
theorem length_setWrites (ws : List (ℕ × ℚ)) :
    ∀ init : List ℚ, (setWrites init ws).length = init.length := by
  induction ws with
  | nil => intro init; rfl
  | cons p ps ih =>
    intro init
    show (setWrites (init.set p.1 p.2) ps).length = init.length
    rw [ih, List.length_set]

/-- Helper: an index no write touches keeps its initial content. -/
theorem setWrites_getElem?_of_not_mem {i : ℕ} (ws : List (ℕ × ℚ))
    (hni : i ∉ ws.map Prod.fst) :
    ∀ init : List ℚ, (setWrites init ws)[i]? = init[i]? := by
  induction ws with
  | nil => intro init; rfl
  | cons p ps ih =>
    intro init
    simp only [List.map_cons, List.mem_cons, not_or] at hni
    show (setWrites (init.set p.1 p.2) ps)[i]? = init[i]?
    rw [ih hni.2, List.getElem?_set_ne (fun hji => hni.1 hji.symm)]

/-- Helper: with pairwise-distinct indices, every written index ends up
holding its written value. -/
theorem setWrites_getElem?_of_mem {i : ℕ} {v : ℚ} (ws : List (ℕ × ℚ))
    (hnd : (ws.map Prod.fst).Nodup) (hmem : (i, v) ∈ ws) :
    ∀ init : List ℚ, i < init.length → (setWrites init ws)[i]? = some v := by
  induction ws with
  | nil => cases hmem
  | cons p ps ih =>
    obtain ⟨j, w⟩ := p
    intro init hi
    rw [List.map_cons, List.nodup_cons] at hnd
    rcases List.mem_cons.mp hmem with heq | hmem2
    · obtain ⟨hij, hvw⟩ := Prod.mk.injEq .. ▸ heq
      subst hij hvw
      show (setWrites (init.set i v) ps)[i]? = some v
      rw [setWrites_getElem?_of_not_mem ps hnd.1, List.getElem?_set_self hi]
    · show (setWrites (init.set j w) ps)[i]? = some v
      exact ih hnd.2 hmem2 (init.set j w) (by rw [List.length_set]; exact hi)

/-- Helper: the frame-major index map enumerates `range (m * n)`. -/
theorem flatMap_range_mul (m n : ℕ) :
    (List.range m).flatMap (fun f => (List.range n).map (fun c => f * n + c)) =
      List.range (m * n) := by
  induction m with
  | zero => simp
  | succ m ih =>
    rw [List.range_succ, List.flatMap_append, ih, Nat.succ_mul, List.range_add]
    simp

/-- Helper: the indices of the write sequence, in order. -/
theorem interleaveWrites_fst (frameLen n : ℕ) (channels : List (List ℚ)) :
    (interleaveWrites frameLen n channels).map Prod.fst = List.range (frameLen * n) := by
  unfold interleaveWrites
  rw [List.map_flatMap]
  simp only [List.map_map, Function.comp_def]
  exact flatMap_range_mul frameLen n

/-- Helper: the write for frame `f`, channel `c` is in the sequence. -/
theorem mem_interleaveWrites {frameLen n f c : ℕ} (channels : List (List ℚ))
    (hf : f < frameLen) (hc : c < n) :
    (f * n + c, (channels.getD c []).getD f 0) ∈ interleaveWrites frameLen n channels := by
  unfold interleaveWrites
  rw [List.mem_flatMap]
  exact ⟨f, List.mem_range.mpr hf, List.mem_map.mpr ⟨c, List.mem_range.mpr hc, rfl⟩⟩

/-- Helper: frame-major indices stay below the buffer length. -/
theorem frame_channel_index_lt {frameLen n f c : ℕ} (hf : f < frameLen) (hc : c < n) :
    f * n + c < frameLen * n := by
  have h1 : f * n + c < (f + 1) * n := by
    rw [Nat.succ_mul]
    omega
  exact Nat.lt_of_lt_of_le h1 (Nat.mul_le_mul_right n hf)

/-- Claim C6: for every decoded audio buffer with its channel data and
every frame offset inside the sample range, the interleaved buffer built
by `convertAudio` for that frame (of `currentFrameSize` samples per
channel, 1024 except for a shorter final frame) has length `N * F`, and
its element at index `f * N + c` is sample `f` of the sliced channel
`c`, which is sample `offset + f` of input channel `c`. -/
theorem C6_interleaving (ab : AudioBufferModel)
    (hchan : ab.channelData.length = ab.numberOfChannels)
    (offset : ℕ) (hoff : offset < ab.length) :
    (interleaveFrame (currentFrameSize ab.length offset) ab.numberOfChannels
        (frameChannels ab offset (currentFrameSize ab.length offset))).length =
      ab.numberOfChannels * currentFrameSize ab.length offset ∧
    ∀ f c, f < currentFrameSize ab.length offset → c < ab.numberOfChannels →
      (interleaveFrame (currentFrameSize ab.length offset) ab.numberOfChannels
          (frameChannels ab offset (currentFrameSize ab.length offset))).getD
          (f * ab.numberOfChannels + c) 0 =
        ((frameChannels ab offset (currentFrameSize ab.length offset)).getD c []).getD f 0 ∧
      ((frameChannels ab offset (currentFrameSize ab.length offset)).getD c []).getD f 0 =
        (ab.channelData.getD c []).getD (offset + f) 0 := by
  set F := currentFrameSize ab.length offset with hF
  set N := ab.numberOfChannels with hN
  set channels := frameChannels ab offset F with hch
  constructor
  · rw [interleaveFrame_eq_setWrites, length_setWrites, List.length_replicate,
      Nat.mul_comm]
  · intro f c hf hc
    constructor
    · have hi : f * N + c < (List.replicate (F * N) (0 : ℚ)).length := by
        rw [List.length_replicate]
        exact frame_channel_index_lt hf hc
      have hsome : (interleaveFrame F N channels)[f * N + c]? =
          some ((channels.getD c []).getD f 0) := by
        rw [interleaveFrame_eq_setWrites]
        exact setWrites_getElem?_of_mem _
          (by rw [interleaveWrites_fst]; exact List.nodup_range (F * N))
          (mem_interleaveWrites channels hf hc) _ hi
      rw [List.getD_eq_getElem?_getD, hsome]
      rfl
    · have hcrow : channels.getD c [] = sliceChannel (ab.channelData.getD c []) offset F := by
        rw [hch]
        unfold frameChannels
        rw [List.getD_eq_getElem?_getD, List.getElem?_map, List.getElem?_range hc]
        rfl
      rw [hcrow]
      unfold sliceChannel
      rw [List.getD_eq_getElem?_getD, List.getD_eq_getElem?_getD,
        List.getElem?_take, if_pos hf, List.getElem?_drop]
      exact (List.getD_eq_getElem?_getD _ _ _).symm

/-- Witness for C6 on a two-channel three-sample buffer at offset 0. -/
theorem C6_witness :
    (interleaveFrame (currentFrameSize 3 0) 2
        (frameChannels abExample 0 (currentFrameSize 3 0))).length =
      2 * currentFrameSize 3 0 ∧
    (interleaveFrame (currentFrameSize 3 0) 2
        (frameChannels abExample 0 (currentFrameSize 3 0))).getD (1 * 2 + 1) 0 =
      ((frameChannels abExample 0 (currentFrameSize 3 0)).getD 1 []).getD 1 0 :=
  ⟨(C6_interleaving abExample rfl 0 (by decide)).1,
   ((C6_interleaving abExample rfl 0 (by decide)).2 1 1 (by decide) (by decide)).1⟩

end WebVideoEditor
